import Mathlib

/-!
Verification of the FOOD_extractor backend (barcode-first, OCR-fallback
nutrition extraction pipeline).

The Python sources under `backend/` are shallowly embedded below:

* `text_processor.py`   — `TextProcessor` (field extraction from OCR text);
* `barcode_service.py`  — `BarcodeService` (product lookup, schema mapping);
* `main.py`             — `upload_image` orchestrator (barcode first, OCR fallback);
* `ocr_service_advanced.py` — multi-pass recognition and result selection;
* `image_processor_advanced.py` — `check_image_quality`.

External collaborators (the Tesseract OCR engine, the pyzbar decoder, the
OpenFoodFacts HTTP endpoint, OpenCV/NumPy raster statistics) are modelled as
explicit inputs, exactly at the boundary where the Python code consumes their
results.  Python regular-expression search (`re.search`) is embedded by a
small executable backtracking engine (`Re` / `mrun` / `research`) with
Python's priority semantics: leftmost starting position, earlier alternative
first, greedy quantifiers.  Machine floats that only carry decimal literals
captured from text are modelled exactly as rationals.
-/

set_option maxRecDepth 4000

/-! ## Python string primitives -/

/-- Python `str.isspace`-style whitespace as used by `\s`, `str.strip` and
`str.split` (ASCII fragment; the texts under study are ASCII). -/
def pyWS (c : Char) : Bool :=
  c = ' ' || c = '\t' || c = '\n' || c = '\r' || c = '\x0b' || c = '\x0c'

/-- Leading/trailing-whitespace strip on a character list (Python `str.strip`). -/
def stripL (cs : List Char) : List Char :=
  ((cs.dropWhile pyWS).reverse.dropWhile pyWS).reverse

/-- Python `str.strip()`. -/
def pyStrip (s : String) : String :=
  String.mk (stripL s.data)

/-- Python `str.lower()` (ASCII fragment). -/
def pyLower (s : String) : String :=
  String.mk (s.data.map Char.toLower)

/-- Leftmost, non-overlapping substring replacement on character lists
(Python `str.replace(pat, rep)`; the callers only use non-empty patterns). -/
def replaceL (pat rep : List Char) : List Char → List Char
  | [] => []
  | c :: cs =>
    match pat with
    | [] => c :: cs
    | _ :: _ =>
      if pat.isPrefixOf (c :: cs) then
        rep ++ replaceL pat rep (cs.drop (pat.length - 1))
      else c :: replaceL pat rep cs
termination_by l => l.length
decreasing_by
  · simp only [List.length_drop, List.length_cons]
    omega
  · simp only [List.length_cons]
    omega

/-- Python `s.replace(pat, rep)`. -/
def pyReplace (s pat rep : String) : String :=
  String.mk (replaceL pat.data rep.data s.data)

/-- Python substring containment (`needle in hay`). -/
def strContains (hay needle : String) : Bool :=
  (List.range (hay.length + 1)).any (fun i => needle.data.isPrefixOf (hay.data.drop i))

/-- Splitting on every character satisfying `p`, keeping empty pieces:
the common core of Python `str.split(sep)` (single-character separator) and
`re.split(r'[,;]', s)`. -/
def splitP (p : Char → Bool) : List Char → List (List Char)
  | [] => [[]]
  | c :: cs =>
    if p c then [] :: splitP p cs
    else
      match splitP p cs with
      | [] => [[c]]
      | g :: gs => (c :: g) :: gs

/-- Python `s.split(sep)` for a one-character separator, as a list of strings.
(The callers below only ever reach it with a non-empty `s`.) -/
def pySplitOn (sep : Char) (s : String) : List String :=
  (splitP (fun c => c = sep) s.data).map String.mk

/-- Python `re.split(r'[,;]', s)`: split on every comma or semicolon. -/
def pySplitSeps (s : String) : List String :=
  (splitP (fun c => c = ',' || c = ';') s.data).map String.mk

/-! ## A tiny regular-expression engine with Python `re.search` semantics

Constructors cover exactly what the patterns in `text_processor.py` use:
literals, character classes, sequencing, alternation (earlier branch
preferred), greedy `*`, one capturing group, negative lookahead and the `\b`
word boundary.  `mrun fuel r s i cap` returns the possible
(match end, group-1 span) pairs in backtracking priority order; the head is
the match Python would produce.  `fuel` only bounds the recursion depth and
is chosen large enough at the call site (`research`). -/

inductive Re where
  | eps
  | lit (c : Char)
  | cls (p : Char → Bool)
  | seq (a b : Re)
  | alt (a b : Re)
  | star (a : Re)
  | grp (a : Re)
  | nla (a : Re)
  | wb

/-- Python `\w` (ASCII fragment): letters, digits, underscore. -/
def wordChar (c : Char) : Bool :=
  c.isAlphanum || c = '_'

/-- One backtracking step list: all ways to match `r` at index `i` of `s`,
most preferred first.  `cap` is the group-1 span recorded so far. -/
def mrun : Nat → Re → List Char → Nat → Option (Nat × Nat) →
    List (Nat × Option (Nat × Nat))
  | 0, _, _, _, _ => []
  | _ + 1, .eps, _, i, cap => [(i, cap)]
  | _ + 1, .lit c, s, i, cap =>
    match s.get? i with
    | some c' => if c' = c then [(i + 1, cap)] else []
    | none => []
  | _ + 1, .cls p, s, i, cap =>
    match s.get? i with
    | some c' => if p c' then [(i + 1, cap)] else []
    | none => []
  | fuel + 1, .seq a b, s, i, cap =>
    (mrun fuel a s i cap).flatMap (fun r => mrun fuel b s r.1 r.2)
  | fuel + 1, .alt a b, s, i, cap =>
    mrun fuel a s i cap ++ mrun fuel b s i cap
  | fuel + 1, .star a, s, i, cap =>
    ((mrun fuel a s i cap).flatMap
      (fun r => if r.1 = i then [] else mrun fuel (.star a) s r.1 r.2)) ++ [(i, cap)]
  | fuel + 1, .grp a, s, i, cap =>
    (mrun fuel a s i cap).map (fun r => (r.1, some (i, r.1)))
  | fuel + 1, .nla a, s, i, cap =>
    if (mrun fuel a s i none).isEmpty then [(i, cap)] else []
  | _ + 1, .wb, s, i, cap =>
    let before := match s.get? (i - 1) with
      | some c => i ≠ 0 && wordChar c
      | none => false
    let after := match s.get? i with
      | some c => wordChar c
      | none => false
    if before ≠ after then [(i, cap)] else []

/-- Structural size of a pattern, used to pick a sufficient fuel. -/
def reSize : Re → Nat
  | .eps => 1
  | .lit _ => 1
  | .cls _ => 1
  | .seq a b => reSize a + reSize b + 1
  | .alt a b => reSize a + reSize b + 1
  | .star a => reSize a + 1
  | .grp a => reSize a + 1
  | .nla a => reSize a + 1
  | .wb => 1

/-- The group-1 text of the preferred match of `r` at position `i`, if any. -/
def matchAt (fuel : Nat) (r : Re) (s : List Char) (i : Nat) : Option String :=
  match mrun fuel r s i none with
  | [] => none
  | (e, cap) :: _ =>
    match cap with
    | some (a, b) => some (String.mk ((s.drop a).take (b - a)))
    | none => some (String.mk ((s.drop i).take (e - i)))

/-- Python `re.search(pattern, text)`, returning `group(1)` of the match
(every pattern below has exactly one capturing group; for group-free helper
patterns the whole match is returned, which no caller relies on).
Scans candidate start positions left to right. -/
def research (r : Re) (t : String) : Option String :=
  let s := t.data
  let fuel := (reSize r + s.length + 2) * (s.length + 2)
  (List.range (s.length + 1)).findSome? (fun i => matchAt fuel r s i)

/-- Whether `re.search` finds any match at all. -/
def reFound (r : Re) (t : String) : Bool :=
  (research r t).isSome

/-! ### Pattern combinators mirroring the regex syntax -/

/-- A literal string, e.g. `calories`. -/
def rlits (s : String) : Re :=
  s.data.foldr (fun c r => Re.seq (.lit c) r) Re.eps

/-- A literal string matched case-insensitively (`re.IGNORECASE`). -/
def rilits (s : String) : Re :=
  s.data.foldr (fun c r => Re.seq (.cls (fun x => x.toLower = c.toLower)) r) Re.eps

/-- Combinator `r?` (greedy option: presence preferred). -/
def ropt (r : Re) : Re := Re.alt r Re.eps

/-- Combinator `r+` (greedy). -/
def rplus (r : Re) : Re := Re.seq r (Re.star r)

/-- Pattern `\s` -/
def rws : Re := Re.cls pyWS

/-- Pattern `\d` (ASCII fragment). -/
def rdigit : Re := Re.cls Char.isDigit

/-- Pattern `[^\n]` -/
def rnotnl : Re := Re.cls (fun c => c ≠ '\n')

/-- Pattern `\b` -/
def rwb : Re := Re.wb

/-! ## `text_processor.py` — `TextProcessor`

Field extraction from recognized text.  Each `_extract_*` method is embedded
as a function of the input text; the regex patterns are transliterated
constructor by constructor from the pattern strings in `__init__`. -/

/-- Integer parse of a captured group (`int(match.group(1))`); the callers
only ever pass `\d+` captures, for which Python's `int` succeeds. -/
def parseIntStr (s : String) : Option Nat :=
  if s.data ≠ [] ∧ s.data.all Char.isDigit then
    some (s.data.foldl (fun n c => n * 10 + (c.toNat - '0'.toNat)) 0)
  else none

/-- Decimal parse of a captured group (`float(match.group(1))`); the callers
only ever pass `\d+\.?\d*` captures.  The decimal literal is represented
exactly as a rational. -/
def parseDec (s : String) : Option ℚ :=
  match splitP (fun c => c = '.') s.data with
  | [ip] =>
    if ip ≠ [] ∧ ip.all Char.isDigit then
      some ((ip.foldl (fun n c => n * 10 + (c.toNat - '0'.toNat)) 0 : Nat) : ℚ)
    else none
  | [ip, fp] =>
    if ip ≠ [] ∧ ip.all Char.isDigit ∧ fp.all Char.isDigit then
      some (((ip.foldl (fun n c => n * 10 + (c.toNat - '0'.toNat)) 0 : Nat) : ℚ) +
        ((fp.foldl (fun n c => n * 10 + (c.toNat - '0'.toNat)) 0 : Nat) : ℚ) / (10 : ℚ) ^ fp.length)
    else none
  | _ => none

/-- Pattern `r'calories?\s*:?\s*(\d+)'` -/
def calorie_pat1 : Re :=
  .seq (rlits "calorie") (.seq (ropt (.lit 's'))
    (.seq (.star rws) (.seq (ropt (.lit ':')) (.seq (.star rws) (.grp (rplus rdigit))))))

/-- Pattern `r'energy\s*:?\s*(\d+)\s*(?:kcal|cal)'` -/
def calorie_pat2 : Re :=
  .seq (rlits "energy") (.seq (.star rws) (.seq (ropt (.lit ':'))
    (.seq (.star rws) (.seq (.grp (rplus rdigit))
      (.seq (.star rws) (.alt (rlits "kcal") (rlits "cal")))))))

/-- Pattern `r'(\d+)\s*(?:kcal|cal)'` -/
def calorie_pat3 : Re :=
  .seq (.grp (rplus rdigit)) (.seq (.star rws) (.alt (rlits "kcal") (rlits "cal")))

/-- Pattern `r'caloric\s+value\s*:?\s*(\d+)'` -/
def calorie_pat4 : Re :=
  .seq (rlits "caloric") (.seq (rplus rws) (.seq (rlits "value")
    (.seq (.star rws) (.seq (ropt (.lit ':')) (.seq (.star rws) (.grp (rplus rdigit)))))))

/-- Table `self.calorie_patterns`, in order. -/
def calorie_patterns : List Re :=
  [calorie_pat1, calorie_pat2, calorie_pat3, calorie_pat4]

/-- Pattern `r'serving\s+size\s*:?\s*([^\n]+)'` -/
def serving_pat1 : Re :=
  .seq (rlits "serving") (.seq (rplus rws) (.seq (rlits "size")
    (.seq (.star rws) (.seq (ropt (.lit ':')) (.seq (.star rws) (.grp (rplus rnotnl)))))))

/-- Pattern `r'portion\s*:?\s*([^\n]+)'` -/
def serving_pat2 : Re :=
  .seq (rlits "portion") (.seq (.star rws) (.seq (ropt (.lit ':'))
    (.seq (.star rws) (.grp (rplus rnotnl)))))

/-- Pattern `r'per\s+(\d+\s*(?:g|ml|oz|cup))'` -/
def serving_pat3 : Re :=
  .seq (rlits "per") (.seq (rplus rws) (.grp (.seq (rplus rdigit)
    (.seq (.star rws) (.alt (.lit 'g') (.alt (rlits "ml") (.alt (rlits "oz") (rlits "cup"))))))))

/-- Table `self.serving_patterns`, in order. -/
def serving_patterns : List Re :=
  [serving_pat1, serving_pat2, serving_pat3]

/-- Pattern `[A-Z]` searched with `re.IGNORECASE`: any (ASCII) letter. -/
def rAZi : Re := Re.cls Char.isAlpha

/-- Pattern `r'ingredients?\s*:?\s*([^\n]+(?:\n(?![A-Z]{2,})[^\n]+)*)'`, compiled with
`re.IGNORECASE | re.MULTILINE` (the `MULTILINE` flag is inert: the pattern has
no anchors).  Literal words are matched case-insensitively and `[A-Z]{2,}` is
expanded to `[A-Z][A-Z][A-Z]*`. -/
def ingredient_pat1 : Re :=
  .seq (rilits "ingredient") (.seq (ropt (.cls (fun x => x.toLower = 's')))
    (.seq (.star rws) (.seq (ropt (.lit ':')) (.seq (.star rws)
      (.grp (.seq (rplus rnotnl)
        (.star (.seq (.lit '\n')
          (.seq (.nla (.seq rAZi (.seq rAZi (.star rAZi)))) (rplus rnotnl))))))))))

/-- Pattern `r'contains?\s*:?\s*([^\n]+)'` with `re.IGNORECASE`. -/
def ingredient_pat2 : Re :=
  .seq (rilits "contain") (.seq (ropt (.cls (fun x => x.toLower = 's')))
    (.seq (.star rws) (.seq (ropt (.lit ':')) (.seq (.star rws) (.grp (rplus rnotnl))))))

/-- Table `self.ingredient_patterns`, in order. -/
def ingredient_patterns : List Re :=
  [ingredient_pat1, ingredient_pat2]

/-- First pattern in the list whose `re.search` matches; yields `group(1)`. -/
def firstGrp : List Re → String → Option String
  | [], _ => none
  | p :: ps, t =>
    match research p t with
    | some g => some g
    | none => firstGrp ps t

/-- First pattern whose search matches and whose group parses as an `int`
(`try: int(...) ... except ValueError: continue`). -/
def firstParsedNat : List Re → String → Option Nat
  | [], _ => none
  | p :: ps, t =>
    match research p t with
    | some g =>
      match parseIntStr g with
      | some v => some v
      | none => firstParsedNat ps t
    | none => firstParsedNat ps t

/-- First pattern whose search matches and whose group parses as a `float`. -/
def firstParsedDec : List Re → String → Option ℚ
  | [], _ => none
  | p :: ps, t =>
    match research p t with
    | some g =>
      match parseDec g with
      | some v => some v
      | none => firstParsedDec ps t
    | none => firstParsedDec ps t

/-- The dictionary returned by `_extract_calories`. -/
structure CalorieField where
  value : Option Nat
  unit : String
  found : Bool
deriving DecidableEq

/-- Embeds `TextProcessor._extract_calories`. -/
def extract_calories (text : String) : CalorieField :=
  let text_lower := pyLower text
  match firstParsedNat calorie_patterns text_lower with
  | some v => { value := some v, unit := "kcal", found := true }
  | none => { value := none, unit := "kcal", found := false }

/-- The dictionary returned by `_extract_serving_size`. -/
structure ServingField where
  value : Option String
  found : Bool
deriving DecidableEq

/-- Embeds `TextProcessor._extract_serving_size`. -/
def extract_serving_size (text : String) : ServingField :=
  let text_lower := pyLower text
  match firstGrp serving_patterns text_lower with
  | some g => { value := some (pyStrip g), found := true }
  | none => { value := none, found := false }

/-- The dictionary returned by `_extract_ingredients`. -/
structure IngredientsField where
  list : List String
  raw : Option String
  found : Bool
deriving DecidableEq

/-- Embeds `TextProcessor._extract_ingredients`: first matching pattern's captured
block, stripped, split on `[,;]`, tokens stripped, empties dropped. -/
def extract_ingredients (text : String) : IngredientsField :=
  match firstGrp ingredient_patterns text with
  | some g =>
    let ingredients_text := pyStrip g
    let ingredient_list := (pySplitSeps ingredients_text).map pyStrip
    let ingredient_list := ingredient_list.filter (fun ing => ing ≠ "")
    { list := ingredient_list, raw := some ingredients_text, found := true }
  | none => { list := [], raw := none, found := false }

/-- One entry of the `nutrition_facts` mapping. -/
structure NutEntry where
  value : ℚ
  unit : String
deriving DecidableEq

/-- Pattern `(?:total\s+)?` style optional word. -/
def roptWord (w : String) : Re := ropt (.seq (rlits w) (rplus rws))

/-- Pattern `(\d+\.?\d*)` -/
def rdecGrp : Re :=
  .grp (.seq (rplus rdigit) (.seq (ropt (.lit '.')) (.star rdigit)))

/-- Pattern `\s*:?\s*` -/
def rcolon : Re := .seq (.star rws) (.seq (ropt (.lit ':')) (.star rws))

/-- The `nutrients` pattern table of `_extract_nutrition_facts`, in
insertion order. -/
def nutrients : List (String × List Re) :=
  [("protein",
    [.seq (rlits "protein") (.seq rcolon (.seq rdecGrp (.seq (.star rws) (.lit 'g')))),
     .seq (rlits "protein") (.seq (ropt (.lit 's')) (.seq (.star rws) rdecGrp))]),
   ("fat",
    [.seq (roptWord "total") (.seq (rlits "fat") (.seq rcolon (.seq rdecGrp (.seq (.star rws) (.lit 'g'))))),
     .seq (rlits "fat") (.seq (ropt (.lit 's')) (.seq (.star rws) rdecGrp))]),
   ("carbohydrates",
    [.seq (roptWord "total") (.seq (rlits "carbohydrate") (.seq rcolon (.seq rdecGrp (.seq (.star rws) (.lit 'g'))))),
     .seq (rlits "carb") (.seq (ropt (.lit 's')) (.seq (.star rws) rdecGrp))]),
   ("sugar",
    [.seq (rlits "sugar") (.seq (ropt (.lit 's')) (.seq rcolon (.seq rdecGrp (.seq (.star rws) (.lit 'g'))))),
     .seq (rlits "sugar") (.seq (.star rws) rdecGrp)]),
   ("fiber",
    [.seq (roptWord "dietary") (.seq (rlits "fiber") (.seq rcolon (.seq rdecGrp (.seq (.star rws) (.lit 'g'))))),
     .seq (rlits "fibre") (.seq (.star rws) rdecGrp)]),
   ("sodium",
    [.seq (rlits "sodium") (.seq rcolon (.seq rdecGrp (.seq (.star rws) (.alt (rlits "mg") (.lit 'g'))))),
     .seq (rlits "salt") (.seq (.star rws) rdecGrp)])]

/-- Embeds `TextProcessor._extract_nutrition_facts`: per nutrient, first matching
pattern wins; sodium is reported with unit `"mg"`, every other nutrient with
`"g"`; unmatched nutrients are absent. -/
def extract_nutrition_facts (text : String) : List (String × NutEntry) :=
  let text_lower := pyLower text
  nutrients.filterMap (fun np =>
    (firstParsedDec np.2 text_lower).map (fun v =>
      (np.1, { value := v, unit := if np.1 ≠ "sodium" then "g" else "mg" : NutEntry })))

/-- The dictionary returned by `_extract_allergens`. -/
structure AllergensField where
  list : List String
  found : Bool
deriving DecidableEq

/-- The fixed `common_allergens` vocabulary. -/
def common_allergens : List String :=
  ["milk", "eggs", "fish", "shellfish", "tree nuts", "peanuts",
   "wheat", "soybeans", "soy", "gluten", "sesame", "mustard"]

/-- Pattern `r'(?:contains?|allergens?|may contain)\s*:?\s*([^\n]+)'` (searched on the
lowered text, so the `IGNORECASE` flag is inert). -/
def allergen_decl_pat : Re :=
  .seq (.alt (.seq (rlits "contain") (ropt (.lit 's')))
    (.alt (.seq (rlits "allergen") (ropt (.lit 's'))) (rlits "may contain")))
    (.seq (.star rws) (.seq (ropt (.lit ':')) (.seq (.star rws) (.grp (rplus rnotnl)))))

/-- Pattern `r'\b' + allergen + r'\b'` -/
def allergen_word_pat (a : String) : Re :=
  .seq rwb (.seq (rlits a) rwb)

/-- Embeds `TextProcessor._extract_allergens`.  Python deduplicates with
`list(set(...))`, whose order is unspecified; it is modelled as
first-occurrence deduplication. -/
def extract_allergens (text : String) : AllergensField :=
  let text_lower := pyLower text
  let found_allergens :=
    match research allergen_decl_pat text_lower with
    | some allergen_text =>
      common_allergens.filter (fun a => strContains allergen_text a)
    | none =>
      common_allergens.filter (fun a => reFound (allergen_word_pat a) text_lower)
  { list := found_allergens.eraseDups, found := found_allergens.length > 0 }

/-- Python `re.sub(r'\s+', ' ', text)`: collapse each maximal whitespace run to one
space.  The flag records whether the previous character was whitespace. -/
def collapseWS : List Char → Bool → List Char
  | [], _ => []
  | c :: cs, prevWs =>
    if pyWS c then
      if prevWs then collapseWS cs true else ' ' :: collapseWS cs true
    else c :: collapseWS cs false

/-- Python `re.sub(r'[^\w\s\.\,\:\;\-\(\)\%\/]', '', text)`: keep only word
characters, whitespace and the listed punctuation. -/
def allowedChar (c : Char) : Bool :=
  wordChar c || pyWS c || c = '.' || c = ',' || c = ':' || c = ';' ||
    c = '-' || c = '(' || c = ')' || c = '%' || c = '/'

/-- Embeds `TextProcessor._clean_text`. -/
def clean_text (text : String) : String :=
  pyStrip (String.mk ((collapseWS text.data false).filter allowedChar))

/-- A JSON-like value, used to state facts about the exact shape of the
dictionaries the service returns. -/
inductive Val where
  | null
  | str (s : String)
  | bool (b : Bool)
  | num (q : ℚ)
  | lst (xs : List Val)
  | obj (kvs : List (String × Val))

/-- A `None`-or-string as a JSON value. -/
def optStrVal : Option String → Val
  | some s => .str s
  | none => .null

/-- A `None`-or-number as a JSON value. -/
def optNumVal : Option ℚ → Val
  | some q => .num q
  | none => .null

/-- A `None`-or-int as a JSON value. -/
def optNatVal : Option Nat → Val
  | some n => .num n
  | none => .null

/-- The `_extract_calories` dictionary, with its literal key order. -/
def CalorieField.toVal (c : CalorieField) : Val :=
  .obj [("value", optNatVal c.value), ("unit", .str c.unit), ("found", .bool c.found)]

/-- The `_extract_serving_size` dictionary. -/
def ServingField.toVal (s : ServingField) : Val :=
  .obj [("value", optStrVal s.value), ("found", .bool s.found)]

/-- The `_extract_ingredients` dictionary. -/
def IngredientsField.toVal (i : IngredientsField) : Val :=
  .obj [("list", .lst (i.list.map Val.str)), ("raw", optStrVal i.raw), ("found", .bool i.found)]

/-- The `nutrition_facts` mapping as a JSON object. -/
def nutritionVal (n : List (String × NutEntry)) : Val :=
  .obj (n.map (fun ne => (ne.1, Val.obj [("value", .num ne.2.value), ("unit", .str ne.2.unit)])))

/-- The `_extract_allergens` dictionary. -/
def AllergensField.toVal (a : AllergensField) : Val :=
  .obj [("list", .lst (a.list.map Val.str)), ("found", .bool a.found)]

/-- Embeds `TextProcessor.extract_food_data`: clean the text, run the five field
extractors, return the five-key dictionary (in its literal key order). -/
def extract_food_data (text : String) : List (String × Val) :=
  let cleaned_text := clean_text text
  [("calories", (extract_calories cleaned_text).toVal),
   ("serving_size", (extract_serving_size cleaned_text).toVal),
   ("ingredients", (extract_ingredients cleaned_text).toVal),
   ("nutrition_facts", nutritionVal (extract_nutrition_facts cleaned_text)),
   ("allergens", (extract_allergens cleaned_text).toVal)]

/-! ## `barcode_service.py` — `BarcodeService`

The OpenFoodFacts `product` JSON is modelled by the fields the service reads.
String-valued fields are `Option String` (`None` when absent); Python
truthiness (`or`, `if x:`) is modelled explicitly: absent and empty values are
falsy. -/

/-- The slice of the OpenFoodFacts `product` object consumed by
`_extract_product_data`; `nutriments` is the nested numeric map. -/
structure Product where
  code : Option String
  product_name : Option String
  product_name_tr : Option String
  brands : Option String
  categories : Option String
  image_url : Option String
  nutriments : List (String × ℚ)
  serving_size : Option String
  serving_quantity : Option String
  ingredients_text : Option String
  ingredients_text_tr : Option String
  allergens_tags : List String
  labels_tags : List String
  nova_group : Option ℚ
  nutriscore_grade : Option String

/-- Python `a or b` on optional strings: the empty string is falsy. -/
def pyOrStr (a b : Option String) : Option String :=
  match a with
  | some s => if s ≠ "" then some s else b
  | none => b

/-- Python `a or b` on optional numbers: `0` is falsy. -/
def pyOrNum (a b : Option ℚ) : Option ℚ :=
  match a with
  | some q => if q ≠ 0 then some q else b
  | none => b

/-- Lookup `nutriments.get(key)`. -/
def nutGet (nutriments : List (String × ℚ)) (key : String) : Option ℚ :=
  (nutriments.find? (fun kv => kv.1 = key)).map (fun kv => kv.2)

/-- The ingredients-list computation inside `_extract_product_data`:
`[ing.strip() for ing in ingredients_text.replace(';', ',').split(',')]`
when `ingredients_text` is truthy, else `[]`.  Empty pieces are kept. -/
def barcode_ingredients : Option String → List String
  | none => []
  | some t =>
    if t ≠ "" then
      (pySplitOn ',' (String.mk (t.data.map (fun c => if c = ';' then ',' else c)))).map pyStrip
    else []

/-- The allergens-list computation inside `_extract_product_data`:
`tag.replace('en:', '').replace('-', ' ')` over `allergens_tags`. -/
def barcode_allergens (tags : List String) : List String :=
  tags.map (fun tag => pyReplace (pyReplace tag "en:" "") "-" " ")

/-- The `nutrient_map` of `BarcodeService._extract_nutrition_facts`, in
insertion order: nutrient name to ordered key list. -/
def off_nutrient_map : List (String × List String) :=
  [("protein", ["proteins_100g", "proteins"]),
   ("fat", ["fat_100g", "fat"]),
   ("saturated_fat", ["saturated-fat_100g", "saturated-fat"]),
   ("carbohydrates", ["carbohydrates_100g", "carbohydrates"]),
   ("sugars", ["sugars_100g", "sugars"]),
   ("fiber", ["fiber_100g", "fiber"]),
   ("sodium", ["sodium_100g", "sodium"]),
   ("salt", ["salt_100g", "salt"])]

/-- Embeds `BarcodeService._extract_nutrition_facts`: per nutrient try the keys in
order and stop at the first one present (`is not None`, so `0` is kept);
sodium and salt are reported with unit `"mg"`, the rest with `"g"`. -/
def off_nutrition_facts (nutriments : List (String × ℚ)) : List (String × NutEntry) :=
  off_nutrient_map.filterMap (fun nk =>
    (nk.2.findSome? (fun key => nutGet nutriments key)).map (fun v =>
      (nk.1, { value := v
               unit := if nk.1 = "sodium" ∨ nk.1 = "salt" then "mg" else "g" : NutEntry })))

/-- Embeds `BarcodeService._extract_product_data`: the structured dictionary built
from a positive product lookup, with its literal key order.  Note the
`source` key is the literal string `"openfoodfacts"`. -/
def extract_product_data (product : Product) : List (String × Val) :=
  let nutriments := product.nutriments
  let calories_value := pyOrNum (nutGet nutriments "energy-kcal_100g") (nutGet nutriments "energy-kcal")
  let calories_serving := nutGet nutriments "energy-kcal_serving"
  let serving_size := pyOrStr product.serving_size product.serving_quantity
  let ingredients_text := pyOrStr product.ingredients_text product.ingredients_text_tr
  let ingredients_list := barcode_ingredients ingredients_text
  let allergens_list := barcode_allergens product.allergens_tags
  [("source", .str "openfoodfacts"),
   ("barcode", optStrVal product.code),
   ("product_name", optStrVal (pyOrStr product.product_name product.product_name_tr)),
   ("brands", optStrVal product.brands),
   ("categories", optStrVal product.categories),
   ("image_url", optStrVal product.image_url),
   ("calories", .obj
     [("value", optNumVal calories_value),
      ("value_serving", optNumVal calories_serving),
      ("unit", .str "kcal"),
      ("found", .bool (calories_value ≠ none))]),
   ("serving_size", .obj
     [("value", optStrVal serving_size),
      ("found", .bool (serving_size ≠ none))]),
   ("ingredients", .obj
     [("list", .lst (ingredients_list.map Val.str)),
      ("raw", optStrVal ingredients_text),
      ("found", .bool (match ingredients_text with | some t => t ≠ "" | none => false))]),
   ("nutrition_facts", nutritionVal (off_nutrition_facts nutriments)),
   ("allergens", .obj
     [("list", .lst (allergens_list.map Val.str)),
      ("found", .bool (allergens_list ≠ []))]),
   ("labels", .lst (product.labels_tags.map Val.str)),
   ("nova_group", optNumVal product.nova_group),
   ("nutriscore_grade", optStrVal product.nutriscore_grade)]

/-- The body of the OpenFoodFacts HTTP response once decoded:
`status` (`data.get('status')`) and the optional `product` object (an absent
or empty `product` is falsy in `data.get('product')`). -/
structure RespBody where
  status : Option Int
  product : Option Product

/-- What the `requests.get` call can produce, as seen by `get_product_info`:
a timeout, some other raised exception (connection failure, and also a
`response.json()` decode error, both caught by the same handlers), or an HTTP
response carrying a status code and, when the body is well-formed JSON, the
decoded body (`none` body = `response.json()` raised). -/
inductive LookupOutcome where
  | timeout
  | error
  | http (status_code : Nat) (body : Option RespBody)

/-- Embeds `BarcodeService.get_product_info` (with the network call abstracted into
the `LookupOutcome` it produced): every failure shape collapses to `None`. -/
def get_product_info (resp : LookupOutcome) : Option (List (String × Val)) :=
  match resp with
  | .timeout => none
  | .error => none
  | .http status_code body =>
    if status_code = 200 then
      match body with
      | none => none
      | some data =>
        if data.status = some 1 then
          match data.product with
          | some product => some (extract_product_data product)
          | none => none
        else none
    else none

/-- Embeds `BarcodeService.scan_and_fetch`: `detect_barcode` is the external pyzbar
decoder, modelled by its result (`decode`); an empty decoded string is falsy
(`if barcode:`).  `lookup` maps the barcode to the network outcome. -/
def scan_and_fetch (decode : Option String) (lookup : String → LookupOutcome) :
    Option (List (String × Val)) :=
  match decode with
  | some barcode => if barcode ≠ "" then get_product_info (lookup barcode) else none
  | none => none

/-! ## `main.py` — the `upload_image` orchestrator

Modelled from the point where the raster has been decoded: the pyzbar result,
the per-barcode lookup outcome and the raw OCR text are the inputs. -/

/-- The three terminal outcomes of `upload_image` on a decodable image:
product found via barcode, OCR fallback with no text detected, or OCR
fallback with a structured record. -/
inductive UploadOutcome where
  | barcodeHit (data : List (String × Val))
  | noText
  | ocrResult (data : List (String × Val))

/-- The record built on the OCR path: `extract_food_data` plus the
`structured_data["source"] = "ocr"` assignment, which appends the new key. -/
def ocr_record (raw_text : String) : List (String × Val) :=
  extract_food_data raw_text ++ [("source", .str "ocr")]

/-- The OCR-fallback tail of `upload_image`: empty or whitespace-only text is
the terminal "no text detected" outcome; otherwise the structured record. -/
def ocr_fallback (raw_text : String) : UploadOutcome :=
  if pyStrip raw_text = "" then .noText else .ocrResult (ocr_record raw_text)

/-- Embeds `upload_image` (after image decode): barcode first, OCR fallback. -/
def upload_image (decode : Option String) (lookup : String → LookupOutcome)
    (raw_text : String) : UploadOutcome :=
  match scan_and_fetch decode lookup with
  | some barcode_data => .barcodeHit barcode_data
  | none => ocr_fallback raw_text

/-! ## `ocr_service_advanced.py` — `OCRServiceAdvanced`

The Tesseract engine is the external collaborator: for a given image and
segmentation mode it either raises or yields the recognized text together
with the per-token confidence list (`data['conf']`) and token list
(`data['text']`).  Images are opaque handles. -/

/-- An opaque handle for a (preprocessed) image. -/
abbrev Img := String

/-- What one `pytesseract` call pair can produce for a given image and PSM
mode. -/
inductive EngineOutcome where
  | exception
  | ok (text : String) (conf : List Int) (tokens : List String)

/-- One collected recognition result (the dictionary built by
`_ocr_single_pass`). -/
structure OCRResult where
  text : String
  confidence : ℚ
  word_count : Nat
  method : String

/-- Table `self.psm_modes`, in order. -/
def psm_modes : List Nat := [6, 3, 4, 11, 12]

/-- Embeds `OCRServiceAdvanced._ocr_single_pass`: `None` on an engine exception;
otherwise the result dictionary.  The average confidence is the mean of the
strictly positive confidences (`[int(c) for c in data['conf'] if int(c) > 0]`),
`0` when there are none; the word count counts tokens with non-blank text. -/
def ocr_single_pass (engine : Img → Nat → EngineOutcome) (image : Img)
    (psm_mode : Nat) (method_name : String) : Option OCRResult :=
  match engine image psm_mode with
  | .exception => none
  | .ok text conf tokens =>
    let confidences := conf.filter (fun c => 0 < c)
    let avg_confidence : ℚ :=
      if confidences ≠ [] then ((confidences.sum : ℤ) : ℚ) / (confidences.length : ℚ) else 0
    let word_count := (tokens.filter (fun w => pyStrip w ≠ "")).length
    some { text := text, confidence := avg_confidence, word_count := word_count,
           method := method_name ++ "_psm" ++ toString psm_mode }

/-- The `results` list accumulated by `extract_text_robust`: one pass per
(variation, PSM mode) pair — or per PSM mode on the single image when no
variations are given — appending each pass result that is truthy.  A returned
dictionary is always truthy, so exactly the non-`None` results are kept. -/
def collect_results (engine : Img → Nat → EngineOutcome) (image : Img)
    (variations : List (String × Img)) : List OCRResult :=
  if variations ≠ [] then
    variations.flatMap (fun v =>
      psm_modes.filterMap (fun psm => ocr_single_pass engine v.2 psm v.1))
  else
    psm_modes.filterMap (fun psm => ocr_single_pass engine image psm "default")

/-- Python `max(results, key=lambda x: x['confidence'])`: keep the current
best and replace it only on a strictly greater key, so the first of several
equal maxima wins. -/
def pymax_key : OCRResult → List OCRResult → OCRResult
  | best, [] => best
  | best, x :: xs => pymax_key (if best.confidence < x.confidence then x else best) xs

/-- Embeds `OCRServiceAdvanced.extract_text_robust`: empty result set yields `""`,
otherwise the text of the highest-confidence result. -/
def extract_text_robust (engine : Img → Nat → EngineOutcome) (image : Img)
    (variations : List (String × Img)) : String :=
  match collect_results engine image variations with
  | [] => ""
  | r :: rs => (pymax_key r rs).text

/-! ## `image_processor_advanced.py` — `check_image_quality`

The four metrics (mean brightness, Laplacian variance, standard-deviation
contrast) and the raster dimensions are computed by NumPy/OpenCV on the
luminance plane; the assessor is embedded as a function of those computed
values, so the theorems below quantify over every raster.  The display-only
`round(x, 2)` formatting of the metrics echo is omitted; nothing reads it. -/

/-- The dictionary returned by `check_image_quality`. -/
structure QualityReport where
  suitable : Bool
  quality_score : ℤ
  issues : List String
  brightness : ℚ
  blur_score : ℚ
  contrast : ℚ
  resolution : String

/-- Embeds `ImageProcessorAdvanced.check_image_quality`. -/
def check_image_quality (mean_brightness laplacian_var contrast : ℚ)
    (width height : Nat) : QualityReport :=
  let issues : List String :=
    (if mean_brightness < 40 then ["Image too dark - use better lighting"]
     else if mean_brightness > 215 then ["Image too bright/overexposed - reduce lighting"]
     else []) ++
    (if laplacian_var < 100 then ["Image too blurry - hold camera steady and focus on text"]
     else []) ++
    (if contrast < 30 then ["Low contrast - improve lighting or try different angle"]
     else []) ++
    (if width < 800 ∨ height < 600 then ["Image resolution too low - get closer to the text"]
     else [])
  let quality_score : ℤ :=
    100 - (if mean_brightness < 40 ∨ mean_brightness > 215 then 30 else 0)
        - (if laplacian_var < 100 then 40 else 0)
        - (if contrast < 30 then 20 else 0)
        - (if width < 800 then 10 else 0)
  { suitable := issues.length = 0
    quality_score := max 0 quality_score
    issues := issues
    brightness := mean_brightness
    blur_score := laplacian_var
    contrast := contrast
    resolution := toString width ++ "x" ++ toString height }

/-- The top-level key list of a returned dictionary. -/
def keysOf (l : List (String × Val)) : List String := l.map Prod.fst

/-- Python `dict[key]` access on a returned dictionary. -/
def lookupA (key : String) : List (String × Val) → Option Val
  | [] => none
  | kv :: rest => if kv.1 = key then some kv.2 else lookupA key rest

/-! ## Auxiliary predicates and concrete inputs used in the statements -/

/-- Two adjacent characters both satisfying `p` occur somewhere. -/
def hasAdj (p : Char → Bool) : List Char → Bool
  | c₁ :: c₂ :: rest => (p c₁ && p c₂) || hasAdj p (c₂ :: rest)
  | _ => false

/-- An ingredient separator (comma or semicolon). -/
def sepChar (c : Char) : Bool := c = ',' || c = ';'

/-- The text contains two consecutive separator characters. -/
def hasAdjacentSeps (t : String) : Bool := hasAdj sepChar t.data

/-- The text ends with a separator character. -/
def trailingSep (t : String) : Bool :=
  match t.data.getLast? with
  | some c => sepChar c
  | none => false

/-- A concrete OpenFoodFacts product, used to exercise the barcode branch. -/
def sampleProduct : Product :=
  { code := some "8690000000017"
    product_name := some "Chocolate Bar"
    product_name_tr := none
    brands := some "BrandCo"
    categories := some "snacks"
    image_url := none
    nutriments := [("energy-kcal_100g", 520), ("proteins_100g", 6), ("salt_100g", (1 : ℚ) / 2)]
    serving_size := some "30 g"
    serving_quantity := none
    ingredients_text := some "sugar,,salt,"
    ingredients_text_tr := none
    allergens_tags := ["en:milk", "en:tree-nuts"]
    labels_tags := []
    nova_group := some 4
    nutriscore_grade := some "e" }

/-- A lookup that always answers a positive match carrying `sampleProduct`. -/
def lookupHit : String → LookupOutcome :=
  fun _ => .http 200 (some { status := some 1, product := some sampleProduct })

/-- A lookup that always times out. -/
def lookupTimeout : String → LookupOutcome :=
  fun _ => .timeout

/-- An engine whose every pass succeeds with empty text and no tokens. -/
def engineEmptyText : Img → Nat → EngineOutcome :=
  fun _ _ => .ok "" [] []

/-- An engine whose every pass raises. -/
def engineAllRaise : Img → Nat → EngineOutcome :=
  fun _ _ => .exception

/-- An engine whose passes all report confidence 50, with the PSM mode as the
recognized text, producing an all-tie result batch. -/
def engineTie : Img → Nat → EngineOutcome :=
  fun _ psm => .ok (toString psm) [50] []

/-- An engine whose passes all succeed with no confident token (confidence
0), with the PSM mode as the recognized text: an all-tie result batch. -/
def engineTieZero : Img → Nat → EngineOutcome :=
  fun _ psm => .ok (toString psm) [] []

/-! ## Helper lemmas -/

theorem pymax_key_acc_le (rs : List OCRResult) : ∀ best : OCRResult,
    best.confidence ≤ (pymax_key best rs).confidence := by
  induction rs with
  | nil => intro best; exact le_refl _
  | cons x xs ih =>
    intro best
    have hstep : pymax_key best (x :: xs) =
        pymax_key (if best.confidence < x.confidence then x else best) xs := rfl
    rw [hstep]
    split_ifs with h
    · exact le_trans (le_of_lt h) (ih x)
    · exact ih best

theorem pymax_key_le (rs : List OCRResult) : ∀ best y : OCRResult,
    y ∈ best :: rs → y.confidence ≤ (pymax_key best rs).confidence := by
  induction rs with
  | nil =>
    intro best y hy
    rw [List.mem_singleton] at hy
    subst hy; exact le_refl _
  | cons x xs ih =>
    intro best y hy
    have hstep : pymax_key best (x :: xs) =
        pymax_key (if best.confidence < x.confidence then x else best) xs := rfl
    rcases List.mem_cons.mp hy with h1 | hy'
    · subst h1
      rw [hstep]
      refine le_trans ?_ (pymax_key_acc_le xs _)
      split_ifs with h
      · exact le_of_lt h
      · exact le_refl _
    · rcases List.mem_cons.mp hy' with h2 | h3
      · subst h2
        rw [hstep]
        refine le_trans ?_ (pymax_key_acc_le xs _)
        split_ifs with h
        · exact le_refl _
        · exact le_of_not_lt h
      · rw [hstep]
        exact ih _ y (List.mem_cons_of_mem _ h3)

theorem pymax_key_first (rs : List OCRResult) : ∀ best : OCRResult,
    ∃ i, (best :: rs).get? i = some (pymax_key best rs) ∧
      ∀ j y, j < i → (best :: rs).get? j = some y →
        y.confidence < (pymax_key best rs).confidence := by
  induction rs with
  | nil =>
    intro best
    exact ⟨0, rfl, by intro j y hj _; omega⟩
  | cons x xs ih =>
    intro best
    by_cases h : best.confidence < x.confidence
    · obtain ⟨i, hget, hfirst⟩ := ih x
      have hstep : pymax_key best (x :: xs) = pymax_key x xs := by
        show pymax_key (if best.confidence < x.confidence then x else best) xs = _
        rw [if_pos h]
      refine ⟨i + 1, ?_, ?_⟩
      · rw [hstep]; exact hget
      · intro j y hj hjy
        rw [hstep]
        match j, hjy with
        | 0, hjy =>
          have hy : (some best : Option OCRResult) = some y := hjy
          rw [← Option.some.inj hy]
          exact lt_of_lt_of_le h (pymax_key_acc_le xs x)
        | j' + 1, hjy =>
          exact hfirst j' y (by omega) hjy
    · obtain ⟨i, hget, hfirst⟩ := ih best
      have hstep : pymax_key best (x :: xs) = pymax_key best xs := by
        show pymax_key (if best.confidence < x.confidence then x else best) xs = _
        rw [if_neg h]
      cases i with
      | zero =>
        have hbest : pymax_key best xs = best := by
          have hb : (some best : Option OCRResult) = some (pymax_key best xs) := hget
          exact (Option.some.inj hb).symm
        refine ⟨0, ?_, by intro j y hj _; omega⟩
        rw [hstep, hbest]; rfl
      | succ i' =>
        have hb0 : best.confidence < (pymax_key best xs).confidence :=
          hfirst 0 best (by omega) rfl
        refine ⟨i' + 2, ?_, ?_⟩
        · rw [hstep]; exact hget
        · intro j y hj hjy
          rw [hstep]
          match j, hjy with
          | 0, hjy =>
            have hy : (some best : Option OCRResult) = some y := hjy
            rw [← Option.some.inj hy]
            exact hb0
          | 1, hjy =>
            have hy : (some x : Option OCRResult) = some y := hjy
            rw [← Option.some.inj hy]
            exact lt_of_le_of_lt (le_of_not_lt h) hb0
          | j' + 2, hjy =>
            exact hfirst (j' + 1) y (by omega) hjy

theorem splitP_ne_nil (p : Char → Bool) (cs : List Char) : splitP p cs ≠ [] := by
  cases cs with
  | nil => simp [splitP]
  | cons c cs =>
    rw [splitP]
    by_cases hc : p c
    · rw [if_pos hc]; simp
    · rw [if_neg hc]
      cases h : splitP p cs <;> simp

theorem splitP_cons_ne_single (p : Char → Bool) (c : Char) (cs : List Char) :
    splitP p (c :: cs) ≠ [[]] := by
  rw [splitP]
  by_cases hc : p c
  · rw [if_pos hc]
    intro h
    have h2 : splitP p cs = [] := by
      injection h with _ h2
    exact splitP_ne_nil p cs h2
  · rw [if_neg hc]
    cases h : splitP p cs with
    | nil => simp
    | cons g gs =>
      intro h2
      have h3 : c :: g = [] := by injection h2 with h3 _
      simp at h3

theorem splitP_adj (p : Char → Bool) : ∀ cs : List Char, hasAdj p cs = true →
    ∃ g gs, splitP p cs = g :: gs ∧ [] ∈ gs := by
  intro cs
  induction cs with
  | nil => intro h; simp [hasAdj] at h
  | cons c cs ih =>
    cases cs with
    | nil => intro h; simp [hasAdj] at h
    | cons c2 rest =>
      intro h
      rw [hasAdj] at h
      rcases Bool.or_eq_true_iff.mp h with hboth | hrec
      · obtain ⟨hc, hc2⟩ := Bool.and_eq_true_iff.mp hboth
        refine ⟨[], splitP p (c2 :: rest), ?_, ?_⟩
        · rw [splitP, if_pos hc]
        · rw [splitP, if_pos hc2]
          exact List.mem_cons_self _ _
      · obtain ⟨g', gs', hsp, hmem⟩ := ih hrec
        by_cases hc : p c
        · refine ⟨[], g' :: gs', ?_, List.mem_cons_of_mem _ hmem⟩
          rw [splitP, if_pos hc, hsp]
        · refine ⟨c :: g', gs', ?_, hmem⟩
          rw [splitP, if_neg hc, hsp]

theorem splitP_trailing (p : Char → Bool) : ∀ (cs : List Char) (c : Char),
    cs.getLast? = some c → p c = true →
    ∃ pre, splitP p cs = pre ++ [[]] := by
  intro cs
  induction cs with
  | nil => intro c h; simp at h
  | cons a cs ih =>
    intro c hlast hp
    cases cs with
    | nil =>
      have ha : a = c := by
        have h2 : (some a : Option Char) = some c := hlast
        exact Option.some.inj h2
      refine ⟨[[]], ?_⟩
      rw [splitP, if_pos (ha ▸ hp)]
      rfl
    | cons b rest =>
      have hlast' : (b :: rest).getLast? = some c := by
        rw [List.getLast?_cons_cons] at hlast
        exact hlast
      obtain ⟨pre, hpre⟩ := ih c hlast' hp
      by_cases hA : p a
      · refine ⟨[] :: pre, ?_⟩
        rw [splitP, if_pos hA, hpre]
        rfl
      · cases pre with
        | nil =>
          exact absurd hpre (by simpa using splitP_cons_ne_single p b rest)
        | cons g pre' =>
          refine ⟨(a :: g) :: pre', ?_⟩
          rw [splitP, if_neg hA, hpre]
          rfl

theorem hasAdj_map (p q : Char → Bool) (f : Char → Char)
    (hpq : ∀ c, p c = true → q (f c) = true) :
    ∀ cs : List Char, hasAdj p cs = true → hasAdj q (cs.map f) = true := by
  intro cs
  induction cs with
  | nil => intro h; simp [hasAdj] at h
  | cons c cs ih =>
    cases cs with
    | nil => intro h; simp [hasAdj] at h
    | cons c2 rest =>
      intro h
      rw [hasAdj] at h
      rw [List.map_cons, List.map_cons, hasAdj]
      rcases Bool.or_eq_true_iff.mp h with hboth | hrec
      · obtain ⟨hc, hc2⟩ := Bool.and_eq_true_iff.mp hboth
        rw [hpq c hc, hpq c2 hc2]
        simp
      · rw [← List.map_cons]
        rw [ih hrec]
        simp

theorem getLast?_map_list (f : Char → Char) : ∀ cs : List Char,
    (cs.map f).getLast? = cs.getLast?.map f := by
  intro cs
  induction cs with
  | nil => rfl
  | cons c cs ih =>
    cases cs with
    | nil => rfl
    | cons b rest =>
      rw [List.map_cons, List.map_cons, List.getLast?_cons_cons, ← List.map_cons, ih,
        List.getLast?_cons_cons]

theorem firstParsedNat_none (t : String) : ∀ ps : List Re,
    (∀ p ∈ ps, research p t = none) → firstParsedNat ps t = none := by
  intro ps
  induction ps with
  | nil => intro _; rfl
  | cons p ps ih =>
    intro h
    rw [firstParsedNat, h p (List.mem_cons_self _ _)]
    exact ih (fun q hq => h q (List.mem_cons_of_mem _ hq))

theorem firstParsedDec_some (t : String) : ∀ (ps : List Re) (v : ℚ),
    firstParsedDec ps t = some v →
    ∃ p ∈ ps, ∃ g, research p t = some g ∧ parseDec g = some v := by
  intro ps
  induction ps with
  | nil => intro v h; simp [firstParsedDec] at h
  | cons p ps ih =>
    intro v h
    rw [firstParsedDec] at h
    cases hre : research p t with
    | some g =>
      simp only [hre] at h
      cases hpd : parseDec g with
      | some v' =>
        simp only [hpd] at h
        exact ⟨p, List.mem_cons_self _ _, g, hre, by rw [hpd, h]⟩
      | none =>
        simp only [hpd] at h
        obtain ⟨q, hq, g', hg', hv⟩ := ih v h
        exact ⟨q, List.mem_cons_of_mem _ hq, g', hg', hv⟩
    | none =>
      simp only [hre] at h
      obtain ⟨q, hq, g', hg', hv⟩ := ih v h
      exact ⟨q, List.mem_cons_of_mem _ hq, g', hg', hv⟩

theorem get_product_info_some (resp : LookupOutcome) (rec : List (String × Val))
    (h : get_product_info resp = some rec) :
    ∃ product, rec = extract_product_data product := by
  cases resp with
  | timeout => simp [get_product_info] at h
  | error => simp [get_product_info] at h
  | http status_code body =>
    simp only [get_product_info] at h
    by_cases hs : status_code = 200
    · simp only [if_pos hs] at h
      cases body with
      | none => simp at h
      | some data =>
        by_cases h1 : data.status = some 1
        · simp only [if_pos h1] at h
          cases hp : data.product with
          | some product =>
            simp only [hp] at h
            exact ⟨product, (Option.some.inj h).symm⟩
          | none =>
            simp only [hp] at h
            exact Option.noConfusion h
        · simp only [if_neg h1] at h
          exact Option.noConfusion h
    · simp only [if_neg hs] at h
      exact Option.noConfusion h

/-! ## Claims -/

/-- Claim C7: for every input raster (equivalently, for all values of the
computed brightness, blur and contrast metrics and all dimensions), the
Quality Assessor's score lies in [0,100] — base 100 with deductions −30 for
brightness outside [40,215], −40 for blur < 100, −20 for contrast < 30, −10
for width < 800, floored at 0 — and its `suitable` flag is true exactly when
its issues list is empty. -/
theorem quality_report_spec (mean_brightness laplacian_var contrast : ℚ)
    (width height : Nat) :
    0 ≤ (check_image_quality mean_brightness laplacian_var contrast width height).quality_score ∧
    (check_image_quality mean_brightness laplacian_var contrast width height).quality_score ≤ 100 ∧
    ((check_image_quality mean_brightness laplacian_var contrast width height).suitable = true ↔
      (check_image_quality mean_brightness laplacian_var contrast width height).issues = []) := by
  refine ⟨le_max_left 0 _, ?_, ?_⟩
  · have hq : (check_image_quality mean_brightness laplacian_var contrast width height).quality_score =
        max 0 (100 - (if mean_brightness < 40 ∨ mean_brightness > 215 then 30 else 0)
          - (if laplacian_var < 100 then 40 else 0)
          - (if contrast < 30 then 20 else 0)
          - (if width < 800 then 10 else 0)) := rfl
    rw [hq]
    split_ifs <;> decide
  · have hs : (check_image_quality mean_brightness laplacian_var contrast width height).suitable =
        decide ((check_image_quality mean_brightness laplacian_var contrast width height).issues.length = 0) := rfl
    rw [hs]
    simp [List.length_eq_zero]

/-- Claim C5: for every OCR pass whose engine call succeeds with per-token
confidences that are integers at most 100, the reported average confidence
is the arithmetic mean of the strictly positive confidences (non-positive
ones are excluded, not zeroed), is 0 when no confidence is positive, and
lies in [0,100]; the reported word count is non-negative. -/
theorem pass_confidence_spec (engine : Img → Nat → EngineOutcome) (image : Img)
    (psm : Nat) (method : String) (text : String) (conf : List Int)
    (tokens : List String)
    (hok : engine image psm = .ok text conf tokens)
    (hle : ∀ c ∈ conf, c ≤ 100) :
    ∃ r, ocr_single_pass engine image psm method = some r ∧
      (conf.filter (fun c => 0 < c) = [] → r.confidence = 0) ∧
      (conf.filter (fun c => 0 < c) ≠ [] →
        r.confidence = (((conf.filter (fun c => 0 < c)).sum : ℤ) : ℚ) /
          ((conf.filter (fun c => 0 < c)).length : ℚ)) ∧
      0 ≤ r.confidence ∧ r.confidence ≤ 100 ∧ 0 ≤ r.word_count := by
  have hpass : ocr_single_pass engine image psm method =
      some { text := text
             confidence :=
               if conf.filter (fun c => 0 < c) ≠ [] then
                 (((conf.filter (fun c => 0 < c)).sum : ℤ) : ℚ) /
                   ((conf.filter (fun c => 0 < c)).length : ℚ)
               else 0
             word_count := (tokens.filter (fun w => pyStrip w ≠ "")).length
             method := method ++ "_psm" ++ toString psm } := by
    rw [ocr_single_pass, hok]
  refine ⟨_, hpass, ?_, ?_, ?_, ?_, Nat.zero_le _⟩
  · intro hnil
    simp [hnil]
  · intro hne
    simp only [if_pos hne]
  all_goals {
    by_cases hne : conf.filter (fun c => 0 < c) = []
    case pos =>
      rw [if_neg (fun hcon => hcon hne)] <;> norm_num
    case neg =>
      rw [if_pos hne]
      have hpos : ∀ x ∈ conf.filter (fun c => 0 < c), 0 < x := by
        intro x hx
        exact of_decide_eq_true (List.mem_filter.mp hx).2
      have hsum0 : (0 : ℤ) ≤ (conf.filter (fun c => 0 < c)).sum :=
        List.sum_nonneg (fun x hx => le_of_lt (hpos x hx))
      have hlen : 0 < ((conf.filter (fun c => 0 < c)).length : ℚ) := by
        have : conf.filter (fun c => 0 < c) ≠ [] := hne
        have h0 : 0 < (conf.filter (fun c => 0 < c)).length :=
          List.length_pos.mpr this
        exact_mod_cast h0
      first
      | exact div_nonneg (by exact_mod_cast hsum0) (le_of_lt hlen)
      | · have hsum : (conf.filter (fun c => 0 < c)).sum ≤
              ((conf.filter (fun c => 0 < c)).length : ℤ) * 100 := by
            have := List.sum_le_card_nsmul (conf.filter (fun c => 0 < c)) 100
              (fun x hx => hle x (List.mem_filter.mp hx).1)
            simpa [nsmul_eq_mul] using this
          rw [div_le_iff₀ hlen]
          have hc : (((conf.filter (fun c => 0 < c)).sum : ℤ) : ℚ) ≤
              ((conf.filter (fun c => 0 < c)).length : ℚ) * 100 := by
            exact_mod_cast hsum
          linarith
  }

/-- Witness for C5: a concrete successful pass (confidences `[50]`) hits the
non-empty branch with mean 50, inside the stated bounds. -/
theorem pass_confidence_spec_witness :
    ∃ r, ocr_single_pass engineTie "img" 6 "default" = some r ∧
      (([50] : List Int).filter (fun c => 0 < c) = [] → r.confidence = 0) ∧
      (([50] : List Int).filter (fun c => 0 < c) ≠ [] →
        r.confidence = (((([50] : List Int).filter (fun c => 0 < c)).sum : ℤ) : ℚ) /
          ((([50] : List Int).filter (fun c => 0 < c)).length : ℚ)) ∧
      0 ≤ r.confidence ∧ r.confidence ≤ 100 ∧ 0 ≤ r.word_count :=
  pass_confidence_spec engineTie "img" 6 "default" "6" [50] [] rfl (by decide)

/-- Claim C4: for every engine, image and variation set, the Result Selector
returns `""` on an empty result batch, and otherwise the text of a result
whose confidence is maximal, namely the first such result in generation
order. -/
theorem result_selector_spec (engine : Img → Nat → EngineOutcome) (image : Img)
    (variations : List (String × Img)) :
    (collect_results engine image variations = [] →
      extract_text_robust engine image variations = "") ∧
    (∀ r rs, collect_results engine image variations = r :: rs →
      extract_text_robust engine image variations = (pymax_key r rs).text ∧
      (∀ x ∈ r :: rs, x.confidence ≤ (pymax_key r rs).confidence) ∧
      ∃ i, (r :: rs).get? i = some (pymax_key r rs) ∧
        ∀ j y, j < i → (r :: rs).get? j = some y →
          y.confidence < (pymax_key r rs).confidence) := by
  constructor
  · intro h
    rw [extract_text_robust, h]
  · intro r rs h
    refine ⟨?_, ?_, pymax_key_first rs r⟩
    · rw [extract_text_robust, h]
    · intro x hx
      exact pymax_key_le rs r x hx

/-- Witness for C4: on an all-tie batch (five results at confidence 50) the
selector returns the text of the first result, generated under PSM mode 6. -/
theorem result_selector_spec_witness :
    extract_text_robust engineTieZero "img" [] = "6" := by
  obtain ⟨heq, _, _⟩ := (result_selector_spec engineTieZero "img" []).2 _ _
    (rfl : collect_results engineTieZero "img" [] = _)
  rw [heq]
  decide

/-- Claim C3 counterexample: with an engine whose passes all succeed with
empty text, the collected result batch contains results with empty text —
a run that yields empty text still contributes (the `if result:` filter only
drops `None`, i.e. raised passes). -/
theorem pass_contribution_counterexample :
    ¬ ∀ r ∈ collect_results engineEmptyText "img" [], r.text ≠ "" := by
  decide

/-- Claim C3 as amended: a run contributes a RecognitionResult to the
selection set if and only if the pass does not raise; in particular a
successful run contributes its result even when the recognized text is
empty. -/
theorem pass_contribution (engine : Img → Nat → EngineOutcome) (image : Img)
    (psm : Nat) (method : String) :
    (ocr_single_pass engine image psm method = none ↔
      engine image psm = .exception) ∧
    (∀ text conf tokens, engine image psm = .ok text conf tokens →
      ∃ r, ocr_single_pass engine image psm method = some r ∧ r.text = text) := by
  constructor
  · constructor
    · intro h
      cases heng : engine image psm with
      | exception => rfl
      | ok text conf tokens =>
        rw [ocr_single_pass, heng] at h
        exact Option.noConfusion h
    · intro h
      rw [ocr_single_pass, h]
  · intro text conf tokens h
    rw [ocr_single_pass, h]
    exact ⟨_, rfl, rfl⟩

/-- Witness for C3 (amended): an empty-text success still yields a
contribution whose text is the empty string. -/
theorem pass_contribution_witness :
    ∃ r, ocr_single_pass engineEmptyText "img" 6 "default" = some r ∧ r.text = "" :=
  (pass_contribution engineEmptyText "img" 6 "default").2 "" [] [] rfl

/-- Claim C8: every remote-lookup failure shape — timeout, another raised
exception, a non-2xx status, a malformed (undecodable) body, or a decoded
body whose `status` is not 1 — yields the "not found" result `None`, and the
orchestrator then takes the OCR fallback path. -/
theorem lookup_failure_fallback (lookup : String → LookupOutcome)
    (barcode raw_text : String)
    (hfail : lookup barcode = .timeout ∨ lookup barcode = .error ∨
      (∃ s body, lookup barcode = .http s body ∧ ¬(200 ≤ s ∧ s ≤ 299)) ∨
      (∃ s, lookup barcode = .http s none) ∨
      (∃ s d, lookup barcode = .http s (some d) ∧ d.status ≠ some 1)) :
    get_product_info (lookup barcode) = none ∧
    upload_image (some barcode) lookup raw_text = ocr_fallback raw_text := by
  have hnone : get_product_info (lookup barcode) = none := by
    rcases hfail with h | h | ⟨s, body, h, hs⟩ | ⟨s, h⟩ | ⟨s, d, h, hd⟩ <;> rw [h]
    · rfl
    · rfl
    · simp only [get_product_info]
      rw [if_neg (by omega : ¬s = 200)]
    · simp only [get_product_info]
      by_cases hs : s = 200
      · rw [if_pos hs]
      · rw [if_neg hs]
    · simp only [get_product_info]
      by_cases hs : s = 200
      · rw [if_pos hs]
        simp only [if_neg hd]
      · rw [if_neg hs]
  refine ⟨hnone, ?_⟩
  have hsf : scan_and_fetch (some barcode) lookup = none := by
    rw [scan_and_fetch]
    split_ifs with hb
    · exact hnone
    · rfl
  rw [upload_image, hsf]

/-- Witness for C8: a timing-out lookup routes a concrete request to the OCR
fallback. -/
theorem lookup_failure_fallback_witness :
    get_product_info (lookupTimeout "123") = none ∧
    upload_image (some "123") lookupTimeout "some text" = ocr_fallback "some text" :=
  lookup_failure_fallback lookupTimeout "123" "some text" (Or.inl rfl)

/-- Claim C1 counterexample: on a positive barcode lookup the produced record
is tagged `source = "openfoodfacts"`, not `"barcode"` (so the record's
`source` is not drawn from `{"barcode", "ocr"}` as claimed). -/
theorem upload_source_counterexample :
    upload_image (some "123") lookupHit "t" =
      .barcodeHit (extract_product_data sampleProduct) ∧
    lookupA "source" (extract_product_data sampleProduct) =
      some (.str "openfoodfacts") ∧
    lookupA "source" (extract_product_data sampleProduct) ≠
      some (.str "barcode") := by
  refine ⟨rfl, rfl, ?_⟩
  intro h
  have h2 : (some (Val.str "openfoodfacts") : Option Val) = some (.str "barcode") := h
  have h3 := Option.some.inj h2
  have h4 : "openfoodfacts" = "barcode" := by injection h3
  exact absurd h4 (by decide)

/-- Claim C1 as amended: every produced record's `source` is either
`"openfoodfacts"` (barcode-found outcome) or `"ocr"` (OCR fallback); in
particular the barcode-found outcome is tagged `"openfoodfacts"`, not
`"barcode"`. -/
theorem upload_source_values (decode : Option String)
    (lookup : String → LookupOutcome) (raw_text : String) :
    (∀ rec, upload_image decode lookup raw_text = .barcodeHit rec →
      lookupA "source" rec = some (.str "openfoodfacts")) ∧
    (∀ rec, upload_image decode lookup raw_text = .ocrResult rec →
      lookupA "source" rec = some (.str "ocr")) := by
  constructor
  · intro rec h
    have hsf : scan_and_fetch decode lookup = some rec := by
      rw [upload_image] at h
      cases hs : scan_and_fetch decode lookup with
      | some d =>
        simp only [hs] at h
        have hd : d = rec := by injection h
        exact congrArg some hd
      | none =>
        simp only [hs] at h
        rw [ocr_fallback] at h
        split_ifs at h
    have hg : ∃ p, rec = extract_product_data p := by
      cases decode with
      | none => exact Option.noConfusion hsf
      | some b =>
        simp only [scan_and_fetch] at hsf
        split_ifs at hsf with hb
        exact get_product_info_some _ rec hsf
    obtain ⟨p, hp⟩ := hg
    rw [hp]
    rfl
  · intro rec h
    rw [upload_image] at h
    cases hs : scan_and_fetch decode lookup with
    | some d =>
      simp only [hs] at h
      exact UploadOutcome.noConfusion h
    | none =>
      simp only [hs] at h
      rw [ocr_fallback] at h
      split_ifs at h
      have hrec : ocr_record raw_text = rec := by injection h
      rw [← hrec]
      rfl

/-- Witness for C1 (amended): the tags on a concrete barcode hit and on a
concrete OCR fallback record. -/
theorem upload_source_values_witness :
    lookupA "source" (extract_product_data sampleProduct) =
      some (.str "openfoodfacts") ∧
    lookupA "source" (ocr_record "Calories: 250 kcal") = some (.str "ocr") :=
  ⟨(upload_source_values (some "123") lookupHit "t").1 _ rfl,
   (upload_source_values none lookupTimeout "Calories: 250 kcal").2 _ rfl⟩

/-- Claim C2 counterexample: a barcode-path record and an OCR-path record do
not have the same set of top-level keys — `product_name` (among others)
appears only on the barcode path. -/
theorem record_key_sets_counterexample :
    "product_name" ∈ keysOf (extract_product_data sampleProduct) ∧
    "product_name" ∉ keysOf (ocr_record "Calories: 250") ∧
    keysOf (ocr_record "Calories: 250") ≠ keysOf (extract_product_data sampleProduct) := by
  decide

/-- Claim C2 as amended: for every barcode-path and OCR-path input the two
records have fixed, input-independent key lists; every OCR-record key also
occurs in the barcode record, but the barcode record carries eight further
barcode-only keys, so the key sets differ. -/
theorem record_key_sets (product : Product) (raw_text : String) :
    keysOf (extract_product_data product) =
      ["source", "barcode", "product_name", "brands", "categories", "image_url",
       "calories", "serving_size", "ingredients", "nutrition_facts", "allergens",
       "labels", "nova_group", "nutriscore_grade"] ∧
    keysOf (ocr_record raw_text) =
      ["calories", "serving_size", "ingredients", "nutrition_facts", "allergens",
       "source"] ∧
    (∀ k ∈ keysOf (ocr_record raw_text), k ∈ keysOf (extract_product_data product)) ∧
    ¬ (∀ k ∈ keysOf (extract_product_data product), k ∈ keysOf (ocr_record raw_text)) := by
  have h1 : keysOf (extract_product_data product) =
      ["source", "barcode", "product_name", "brands", "categories", "image_url",
       "calories", "serving_size", "ingredients", "nutrition_facts", "allergens",
       "labels", "nova_group", "nutriscore_grade"] := rfl
  have h2 : keysOf (ocr_record raw_text) =
      ["calories", "serving_size", "ingredients", "nutrition_facts", "allergens",
       "source"] := rfl
  refine ⟨h1, h2, ?_, ?_⟩
  · rw [h1, h2]; decide
  · rw [h1, h2]; decide

/-- Claim C6 counterexample: the text "Calories: 100 Calories: 250" contains
the substring "Calories: 250", yet the extractor returns 100, because
`re.search` takes the leftmost match of the first pattern. -/
theorem calorie_extractor_counterexample :
    strContains "Calories: 100 Calories: 250" "Calories: 250" = true ∧
    extract_calories "Calories: 100 Calories: 250" =
      { value := some 100, unit := "kcal", found := true } ∧
    extract_calories "Calories: 100 Calories: 250" ≠
      { value := some 250, unit := "kcal", found := true } := by
  refine ⟨by decide, by decide, by decide⟩

/-- Claim C6 as amended: the extractor returns `{value: 250, unit: "kcal",
found: true}` for the input text "Calories: 250" itself (when the earliest
match of the first applicable pattern captures 250, not merely when
"Calories: 250" occurs as a substring); and for every input on which no
pattern of the ordered calorie pattern list matches it returns
`{value: null, unit: "kcal", found: false}`. -/
theorem calorie_extractor_spec :
    extract_calories "Calories: 250" =
      { value := some 250, unit := "kcal", found := true } ∧
    ∀ text, (∀ p ∈ calorie_patterns, research p (pyLower text) = none) →
      extract_calories text = { value := none, unit := "kcal", found := false } := by
  constructor
  · decide
  · intro text hnone
    rw [extract_calories, firstParsedNat_none (pyLower text) calorie_patterns hnone]

/-- Witness for C6 (amended): a text matched by no calorie pattern yields the
not-found field. -/
theorem calorie_extractor_spec_witness :
    extract_calories "hello" = { value := none, unit := "kcal", found := false } :=
  calorie_extractor_spec.2 "hello" (by decide)

/-- Claim C9: on "sodium: 2 g" (sodium written with unit g) the
nutrition-facts extractor matches and reports the unconverted value 2 with
unit "mg"; in general each reported entry carries the fixed per-nutrient unit
("mg" for sodium, "g" for the others) and a value parsed directly from some
pattern's captured group, with no unit conversion. -/
theorem nutrition_facts_units_spec :
    extract_nutrition_facts "sodium: 2 g" =
      [("sodium", { value := 2, unit := "mg" })] ∧
    ∀ text n e, (n, e) ∈ extract_nutrition_facts text →
      e.unit = (if n = "sodium" then "mg" else "g") ∧
      ∃ pats g, (n, pats) ∈ nutrients ∧
        (∃ p ∈ pats, research p (pyLower text) = some g) ∧
        parseDec g = some e.value := by
  constructor
  · decide
  · intro text n e hmem
    rw [extract_nutrition_facts] at hmem
    obtain ⟨np, hnp, heq⟩ := List.mem_filterMap.mp hmem
    cases hfd : firstParsedDec np.2 (pyLower text) with
    | none => rw [hfd] at heq; exact Option.noConfusion heq
    | some v =>
      rw [hfd] at heq
      have hpair := Option.some.inj heq
      have hn : np.1 = n := congrArg Prod.fst hpair
      have he : ({ value := v, unit := if np.1 ≠ "sodium" then "g" else "mg" } : NutEntry) = e :=
        congrArg Prod.snd hpair
      obtain ⟨p, hp, g, hg, hv⟩ := firstParsedDec_some (pyLower text) np.2 v hfd
      refine ⟨?_, np.2, g, ?_, ⟨p, hp, hg⟩, ?_⟩
      · rw [← he, ← hn]
        by_cases hs : np.1 = "sodium" <;> simp [hs]
      · rw [← hn]
        exact (Prod.mk.eta (p := np)) ▸ hnp
      · rw [← he]
        exact hv

/-- Witness for C9: the universal part applied to the concrete sodium text. -/
theorem nutrition_facts_units_sodium_witness :
    ({ value := 2, unit := "mg" } : NutEntry).unit =
      (if "sodium" = "sodium" then "mg" else "g") ∧
    ∃ pats g, ("sodium", pats) ∈ nutrients ∧
      (∃ p ∈ pats, research p (pyLower "sodium: 2 g") = some g) ∧
      parseDec g = some ({ value := 2, unit := "mg" } : NutEntry).value :=
  nutrition_facts_units_spec.2 "sodium: 2 g" "sodium" { value := 2, unit := "mg" }
    (by decide)

/-- Claim C10: whenever the raw ingredients text contains consecutive
separators or a trailing separator, the barcode-path ingredient list contains
empty-string entries, while the OCR-path extractor never emits empty tokens;
on the shared raw text "sugar,,salt," the two paths produce different lists. -/
theorem ingredient_empty_tokens_spec :
    (∀ t : String, t ≠ "" → (hasAdjacentSeps t = true ∨ trailingSep t = true) →
      "" ∈ barcode_ingredients (some t)) ∧
    (∀ text : String, "" ∉ (extract_ingredients text).list) ∧
    barcode_ingredients (some "sugar,,salt,") = ["sugar", "", "salt", ""] ∧
    (extract_ingredients "Ingredients: sugar,,salt,").list = ["sugar", "salt"] ∧
    barcode_ingredients (some "sugar,,salt,") ≠
      (extract_ingredients "Ingredients: sugar,,salt,").list := by
  refine ⟨?_, ?_, by decide, by decide, by decide⟩
  · intro t ht hsep
    rw [barcode_ingredients, if_pos ht]
    have hmem : [] ∈ splitP (fun c => c = ',')
        (t.data.map (fun c => if c = ';' then ',' else c)) := by
      rcases hsep with hadj | htrail
      · have hmap : hasAdj (fun c => c = ',')
            (t.data.map (fun c => if c = ';' then ',' else c)) = true := by
          refine hasAdj_map sepChar _ _ ?_ t.data hadj
          intro c hc
          rcases Bool.or_eq_true_iff.mp hc with h | h
          · rw [of_decide_eq_true h]
            decide
          · rw [of_decide_eq_true h]
            decide
        obtain ⟨g, gs, hsplit, hmem'⟩ := splitP_adj _ _ hmap
        rw [hsplit]
        exact List.mem_cons_of_mem _ hmem'
      · rw [trailingSep] at htrail
        cases hl : t.data.getLast? with
        | none => rw [hl] at htrail; exact absurd htrail (by decide)
        | some c =>
          rw [hl] at htrail
          have hlast : (t.data.map (fun c => if c = ';' then ',' else c)).getLast? =
              some (if c = ';' then ',' else c) := by
            rw [getLast?_map_list, hl]
            rfl
          have hcomma : decide ((if c = ';' then ',' else c) = ',') = true := by
            rcases Bool.or_eq_true_iff.mp htrail with h | h
            · rw [of_decide_eq_true h]; decide
            · rw [of_decide_eq_true h]; decide
          obtain ⟨pre, hpre⟩ :=
            splitP_trailing (fun x => decide (x = ',')) _ _ hlast hcomma
          rw [hpre]
          exact List.mem_append_right _ (List.mem_singleton.mpr rfl)
    exact List.mem_map.mpr ⟨"", List.mem_map.mpr ⟨[], hmem, rfl⟩, rfl⟩
  · intro text hmem
    rw [extract_ingredients] at hmem
    cases hfg : firstGrp ingredient_patterns text with
    | some g =>
      simp only [hfg] at hmem
      have hne := (List.mem_filter.mp hmem).2
      simp at hne
    | none =>
      simp only [hfg] at hmem
      simp at hmem

/-- Witness for C10: the divergence exhibited on the shared raw text. -/
theorem ingredient_empty_tokens_spec_witness :
    "" ∈ barcode_ingredients (some "sugar,,salt,") ∧
    "" ∉ (extract_ingredients "Ingredients: sugar,,salt,").list :=
  ⟨ingredient_empty_tokens_spec.1 "sugar,,salt," (by decide) (Or.inl (by decide)),
   ingredient_empty_tokens_spec.2.1 "Ingredients: sugar,,salt,"⟩

/-- Witness for C2 (amended): the key-inclusion part evaluated on concrete
inputs — the OCR record's "calories" key also occurs on the barcode record. -/
theorem record_key_sets_witness :
    "calories" ∈ keysOf (extract_product_data sampleProduct) :=
  (record_key_sets sampleProduct "Calories: 250").2.2.1 "calories" (by decide)
